import Mathlib

/-!
Change detection over interface snapshots (interface-notifier).

A shallow embedding of `main.go`.  Go slices are modelled as lists, Go strings
as `String`, and a nil pointer as `none`.  The log output of
`sendNotificationOnInterfaceChange` is modelled by the sequence of interfaces
that are handed to `sendNotification`, in call order; the log output of
`sendNotification` itself is modelled by the list of lines it prints.  The
lookups and the detector write to none of their arguments, so they are pure
functions of them; `addIPToInterfaces` writes through its pointer argument and
is a function from the slice before the call to the slice after it.
-/

namespace InterfaceNotifier

/-- Go `NetInterface`: interface name and its addresses. -/
structure NetInterface where
  Name : String
  IP : List String
  deriving DecidableEq, Repr

/-- Go `SlackConfig`. -/
structure SlackConfig where
  URL : String
  Channel : String
  Username : String
  Icon : String
  deriving DecidableEq, Repr

/-- Go `EmailConfig`. -/
structure EmailConfig where
  To : String
  From : String
  Host : String
  AuthUsername : String
  AuthPassword : String
  RequireTLS : Bool
  deriving DecidableEq, Repr

/-- Go `NotificationReceiver`: both fields are pointers, `none` is nil. -/
structure NotificationReceiver where
  SlackConfig : Option SlackConfig
  EmailConfig : Option EmailConfig
  deriving DecidableEq, Repr

/-- Go `Config`: the watch list and the receivers. -/
structure Config where
  Interfaces : List String
  Receivers : List NotificationReceiver
  deriving DecidableEq, Repr

/-- The search loop of `addIPToInterfaces` (lines 46-52).  The loop variable
`inface` is a copy of the element, so the `append` at line 48 changes the copy
only; what the loop leaves behind is the flag `found`. -/
def addIPToInterfaces.search (ifaceName : String) (ip : String) : List NetInterface → Bool
  | [] => false
  | inface :: rest =>
    if inface.Name = ifaceName then
      let _inface : NetInterface := { inface with IP := inface.IP ++ [ip] }
      true
    else
      addIPToInterfaces.search ifaceName ip rest

/-- Go `addIPToInterfaces` (lines 44-58), as a function from the slice before
the call to the slice after it. -/
def addIPToInterfaces (interfaces : List NetInterface) (ifaceName : String) (ip : String) :
    List NetInterface :=
  let found := addIPToInterfaces.search ifaceName ip interfaces
  if !found then
    let ips := [ip]
    interfaces ++ [{ Name := ifaceName, IP := ips }]
  else
    interfaces

/-- The accumulation of `getInterfaceIPs` (lines 65-83) over the raw
(interface name, address) observations, starting from the nil slice. -/
def getInterfaceIPs (raw : List (String × String)) : List NetInterface :=
  raw.foldl (fun interfaces p => addIPToInterfaces interfaces p.1 p.2) []

/-- Go `isInterfaceInConfig` (lines 97-104). -/
def isInterfaceInConfig (name : String) : List String → Bool
  | [] => false
  | item :: list => if name = item then true else isInterfaceInConfig name list

/-- The inner loop of `difference` (lines 113-119): is `s1` in `slice2`. -/
def difference.found (s1 : String) : List String → Bool
  | [] => false
  | s2 :: slice2 => if s1 = s2 then true else difference.found s1 slice2

/-- One round of the outer loop of `difference` (lines 112-124): the strings of
`slice1` that are not in `slice2` are appended to `diff`. -/
def difference.round (slice1 slice2 : List String) (diff : List String) : List String :=
  slice1.foldl (fun diff s1 => if !difference.found s1 slice2 then diff ++ [s1] else diff) diff

/-- Go `difference` (lines 106-132): two rounds, the slices swapped after the
first. -/
def difference (slice1 slice2 : List String) : List String :=
  let diff : List String := []
  let diff := difference.round slice1 slice2 diff
  let (slice1, slice2) := (slice2, slice1)
  let diff := difference.round slice1 slice2 diff
  diff

/-- Go `isNewInterfaceInOldInterfaces` (lines 146-153). -/
def isNewInterfaceInOldInterfaces (name : String) : List NetInterface → Bool
  | [] => false
  | netinterface :: oldinterfaces =>
    if name = netinterface.Name then true
    else isNewInterfaceInOldInterfaces name oldinterfaces

/-- Go `getOldInterfaceByName` (lines 155-162): a pointer to a copy of the
first entry with the given name, or nil. -/
def getOldInterfaceByName (name : String) : List NetInterface → Option NetInterface
  | [] => none
  | netinterface :: oldinterfaces =>
    if name = netinterface.Name then some netinterface
    else getOldInterfaceByName name oldinterfaces

/-- Go `sendNotificationOnInterfaceChange` (lines 164-183).  The result is the
sequence of interfaces passed to `sendNotification`, in call order. -/
def sendNotificationOnInterfaceChange (newInterfaces : List NetInterface)
    (oldInterfaces : List NetInterface) (config : Config) : List NetInterface :=
  match newInterfaces with
  | [] => []
  | newInterface :: rest =>
    if oldInterfaces.length = 0 ∧ isInterfaceInConfig newInterface.Name config.Interfaces then
      newInterface :: sendNotificationOnInterfaceChange rest oldInterfaces config
    else if ¬ isNewInterfaceInOldInterfaces newInterface.Name oldInterfaces
        ∧ isInterfaceInConfig newInterface.Name config.Interfaces then
      newInterface :: sendNotificationOnInterfaceChange rest oldInterfaces config
    else
      match getOldInterfaceByName newInterface.Name oldInterfaces with
      | some oldInterface =>
        if isInterfaceInConfig oldInterface.Name config.Interfaces
            ∧ (difference oldInterface.IP newInterface.IP).length > 0 then
          newInterface :: sendNotificationOnInterfaceChange rest oldInterfaces config
        else
          sendNotificationOnInterfaceChange rest oldInterfaces config
      | none => sendNotificationOnInterfaceChange rest oldInterfaces config

/-- One line of the log: the message text and the interface printed after it. -/
structure LogLine where
  Message : String
  Interface : NetInterface
  deriving DecidableEq, Repr

/-- The loop of `sendNotification` over `config.Receivers` (lines 136-143): the
lines it logs, in order. -/
def sendNotification.receivers (newInterface : NetInterface) :
    List NotificationReceiver → List LogLine
  | [] => []
  | receiver :: rest =>
    (if receiver.SlackConfig ≠ none then [⟨"Send to Slack", newInterface⟩] else [])
      ++ (if receiver.EmailConfig ≠ none then [⟨"Send to Email", newInterface⟩] else [])
      ++ sendNotification.receivers newInterface rest

/-- Go `sendNotification` (lines 134-144): the lines it logs, in order. -/
def sendNotification (newInterface : NetInterface) (config : Config) : List LogLine :=
  ⟨"Found change, sending: ", newInterface⟩
    :: sendNotification.receivers newInterface config.Receivers

/-- The deliveries among logged lines: the lines of the two receiver kinds. -/
def deliveries (log : List LogLine) : List LogLine :=
  log.filter (fun l => decide (l.Message = "Send to Slack" ∨ l.Message = "Send to Email"))

/-- The variant of `sendNotificationOnInterfaceChange` with the first-run branch
(the `len(oldInterfaces) == 0` test of lines 166-170) removed; the other two
branches are those of the source. -/
def sendNotificationOnInterfaceChangeWithoutFirstRun (newInterfaces : List NetInterface)
    (oldInterfaces : List NetInterface) (config : Config) : List NetInterface :=
  match newInterfaces with
  | [] => []
  | newInterface :: rest =>
    if ¬ isNewInterfaceInOldInterfaces newInterface.Name oldInterfaces
        ∧ isInterfaceInConfig newInterface.Name config.Interfaces then
      newInterface :: sendNotificationOnInterfaceChangeWithoutFirstRun rest oldInterfaces config
    else
      match getOldInterfaceByName newInterface.Name oldInterfaces with
      | some oldInterface =>
        if isInterfaceInConfig oldInterface.Name config.Interfaces
            ∧ (difference oldInterface.IP newInterface.IP).length > 0 then
          newInterface
            :: sendNotificationOnInterfaceChangeWithoutFirstRun rest oldInterfaces config
        else
          sendNotificationOnInterfaceChangeWithoutFirstRun rest oldInterfaces config
      | none => sendNotificationOnInterfaceChangeWithoutFirstRun rest oldInterfaces config

/-- The previous snapshot as `main` obtains it (lines 213-224): the nil slice
when no state file exists, otherwise what `Load` decodes; `none` is the fatal
exit on a decoding error. -/
def main.previousInterfaces (prevExists : Bool) (load : Option (List NetInterface)) :
    Option (List NetInterface) :=
  if prevExists then load else some []

/-! ## Auxiliary facts about the lookups -/

theorem isInterfaceInConfig_iff (name : String) (list : List String) :
    isInterfaceInConfig name list = true ↔ name ∈ list := by
  induction list with
  | nil => simp [isInterfaceInConfig]
  | cons item list ih =>
    by_cases h : name = item
    · simp [isInterfaceInConfig, h]
    · simp [isInterfaceInConfig, h, ih]

theorem difference_found_iff (s1 : String) (slice2 : List String) :
    difference.found s1 slice2 = true ↔ s1 ∈ slice2 := by
  induction slice2 with
  | nil => simp [difference.found]
  | cons s2 slice2 ih =>
    by_cases h : s1 = s2
    · simp [difference.found, h]
    · simp [difference.found, h, ih]

theorem difference_round_eq (slice1 slice2 diff : List String) :
    difference.round slice1 slice2 diff
      = diff ++ slice1.filter (fun s => decide (s ∉ slice2)) := by
  unfold difference.round
  induction slice1 generalizing diff with
  | nil => simp
  | cons s1 slice1 ih =>
    rw [List.foldl_cons, ih]
    by_cases h : s1 ∈ slice2
    · have hf : difference.found s1 slice2 = true := (difference_found_iff _ _).2 h
      simp [hf, h]
    · have hf : difference.found s1 slice2 = false := by
        cases hb : difference.found s1 slice2 with
        | false => rfl
        | true => exact absurd ((difference_found_iff _ _).1 hb) h
      simp [hf, h]

theorem difference_eq (a b : List String) :
    difference a b
      = a.filter (fun s => decide (s ∉ b)) ++ b.filter (fun s => decide (s ∉ a)) := by
  simp [difference, difference_round_eq]

theorem mem_difference_iff (a b : List String) (x : String) :
    x ∈ difference a b ↔ (x ∈ a ∧ x ∉ b) ∨ (x ∈ b ∧ x ∉ a) := by
  simp [difference_eq]

theorem difference_eq_nil_iff (a b : List String) :
    difference a b = [] ↔ ∀ x, x ∈ a ↔ x ∈ b := by
  constructor
  · intro h x
    have hx := mem_difference_iff a b x
    rw [h] at hx
    simp only [List.not_mem_nil, false_iff, not_or, not_and, not_not] at hx
    exact ⟨hx.1, hx.2⟩
  · intro h
    apply List.eq_nil_iff_forall_not_mem.2
    intro x hx
    rcases (mem_difference_iff a b x).1 hx with ⟨h1, h2⟩ | ⟨h1, h2⟩
    · exact h2 ((h x).1 h1)
    · exact h2 ((h x).2 h1)

theorem isNewInterfaceInOldInterfaces_iff (name : String) (old : List NetInterface) :
    isNewInterfaceInOldInterfaces name old = true ↔ ∃ O ∈ old, O.Name = name := by
  induction old with
  | nil => simp [isNewInterfaceInOldInterfaces]
  | cons o old ih =>
    by_cases h : name = o.Name
    · simp [isNewInterfaceInOldInterfaces, h]
    · have h2 : ¬ o.Name = name := fun e => h e.symm
      simp [isNewInterfaceInOldInterfaces, h, h2, ih]

theorem getOldInterfaceByName_eq_find (name : String) (old : List NetInterface) :
    getOldInterfaceByName name old = old.find? (fun O => decide (name = O.Name)) := by
  induction old with
  | nil => rfl
  | cons o old ih =>
    by_cases h : name = o.Name
    · simp [getOldInterfaceByName, List.find?, h]
    · simp [getOldInterfaceByName, List.find?, h, ih]

theorem getOldInterfaceByName_some {name : String} {old : List NetInterface} {O : NetInterface}
    (h : getOldInterfaceByName name old = some O) : O ∈ old ∧ O.Name = name := by
  induction old with
  | nil => simp [getOldInterfaceByName] at h
  | cons o old ih =>
    by_cases hn : name = o.Name
    · simp [getOldInterfaceByName, hn] at h
      subst h
      exact ⟨List.mem_cons_self _ _, hn.symm⟩
    · simp [getOldInterfaceByName, hn] at h
      exact ⟨List.mem_cons_of_mem _ (ih h).1, (ih h).2⟩

theorem getOldInterfaceByName_eq_none_iff (name : String) (old : List NetInterface) :
    getOldInterfaceByName name old = none ↔ isNewInterfaceInOldInterfaces name old = false := by
  induction old with
  | nil => simp [getOldInterfaceByName, isNewInterfaceInOldInterfaces]
  | cons o old ih =>
    by_cases hn : name = o.Name
    · simp [getOldInterfaceByName, isNewInterfaceInOldInterfaces, hn]
    · simp [getOldInterfaceByName, isNewInterfaceInOldInterfaces, hn, ih]

/-- The decision `sendNotificationOnInterfaceChange` takes for one entry of the
new snapshot: the disjunction of its three branches. -/
def notifies (oldInterfaces : List NetInterface) (config : Config)
    (newInterface : NetInterface) : Bool :=
  (decide (oldInterfaces.length = 0) && isInterfaceInConfig newInterface.Name config.Interfaces)
  || (!isNewInterfaceInOldInterfaces newInterface.Name oldInterfaces
        && isInterfaceInConfig newInterface.Name config.Interfaces)
  || (match getOldInterfaceByName newInterface.Name oldInterfaces with
      | some oldInterface =>
        isInterfaceInConfig oldInterface.Name config.Interfaces
          && decide ((difference oldInterface.IP newInterface.IP).length > 0)
      | none => false)

theorem sendNotificationOnInterfaceChange_eq_filter (newInterfaces oldInterfaces : List NetInterface)
    (config : Config) :
    sendNotificationOnInterfaceChange newInterfaces oldInterfaces config
      = newInterfaces.filter (notifies oldInterfaces config) := by
  induction newInterfaces with
  | nil => rfl
  | cons e rest ih =>
    rw [sendNotificationOnInterfaceChange, ih]
    by_cases h1 : oldInterfaces.length = 0 ∧ isInterfaceInConfig e.Name config.Interfaces = true
    · have hn : notifies oldInterfaces config e = true := by
        simp [notifies, h1.1, h1.2]
      rw [if_pos h1, List.filter_cons_of_pos hn]
    · rw [if_neg h1]
      by_cases h2 : ¬ isNewInterfaceInOldInterfaces e.Name oldInterfaces = true
          ∧ isInterfaceInConfig e.Name config.Interfaces = true
      · have hn : notifies oldInterfaces config e = true := by
          have := h2.1
          simp only [Bool.not_eq_true] at this
          simp [notifies, this, h2.2]
        rw [if_pos h2, List.filter_cons_of_pos hn]
      · rw [if_neg h2]
        cases hg : getOldInterfaceByName e.Name oldInterfaces with
        | none =>
          have hn : notifies oldInterfaces config e = false := by
            simp only [notifies, hg]
            simp only [not_and, Bool.not_eq_true, Bool.decide_eq_true] at h1 h2
            by_cases hc : isInterfaceInConfig e.Name config.Interfaces = true
            · have hnew := (getOldInterfaceByName_eq_none_iff _ _).1 hg
              have := h2 hnew
              simp [hc] at this
            · simp only [Bool.not_eq_true] at hc
              simp [hc]
          simp only []
          rw [List.filter_cons_of_neg (by simp [hn])]
        | some o =>
          simp only []
          by_cases h3 : isInterfaceInConfig o.Name config.Interfaces = true
              ∧ (difference o.IP e.IP).length > 0
          · have hn : notifies oldInterfaces config e = true := by
              simp only [notifies, hg]
              simp [h3.1, h3.2]
            rw [if_pos h3, List.filter_cons_of_pos hn]
          · have hn : notifies oldInterfaces config e = false := by
              have hname := (getOldInterfaceByName_some hg).2
              have hnew : isNewInterfaceInOldInterfaces e.Name oldInterfaces = true :=
                (isNewInterfaceInOldInterfaces_iff _ _).2 ⟨o, (getOldInterfaceByName_some hg).1, hname⟩
              have hlen : oldInterfaces.length ≠ 0 := by
                intro hl
                have := List.length_eq_zero.1 hl
                rw [this] at hg
                simp [getOldInterfaceByName] at hg
              simp only [notifies, hg, hnew]
              rw [hname] at h3 ⊢
              by_cases hc : isInterfaceInConfig e.Name config.Interfaces = true
              · have hd : ¬ (difference o.IP e.IP).length > 0 := fun hd => h3 ⟨hc, hd⟩
                simp [hlen, hc, hd]
              · simp only [Bool.not_eq_true] at hc
                simp [hc]
            rw [if_neg h3, List.filter_cons_of_neg (by simp [hn])]

theorem sendNotificationOnInterfaceChange_append (n1 n2 oldInterfaces : List NetInterface)
    (config : Config) :
    sendNotificationOnInterfaceChange (n1 ++ n2) oldInterfaces config
      = sendNotificationOnInterfaceChange n1 oldInterfaces config
        ++ sendNotificationOnInterfaceChange n2 oldInterfaces config := by
  simp [sendNotificationOnInterfaceChange_eq_filter]

theorem sendNotificationOnInterfaceChange_single (e : NetInterface)
    (oldInterfaces : List NetInterface) (config : Config) :
    sendNotificationOnInterfaceChange [e] oldInterfaces config
      = if notifies oldInterfaces config e = true then [e] else [] := by
  rw [sendNotificationOnInterfaceChange_eq_filter]
  by_cases h : notifies oldInterfaces config e = true
  · simp [h]
  · simp [h]

theorem sendNotificationOnInterfaceChange_insert (pre post : List NetInterface) (e : NetInterface)
    (oldInterfaces : List NetInterface) (config : Config) :
    sendNotificationOnInterfaceChange (pre ++ e :: post) oldInterfaces config
      = sendNotificationOnInterfaceChange pre oldInterfaces config
        ++ (if notifies oldInterfaces config e = true then [e] else [])
        ++ sendNotificationOnInterfaceChange post oldInterfaces config := by
  have h : pre ++ e :: post = pre ++ ([e] ++ post) := by simp
  rw [h, sendNotificationOnInterfaceChange_append, sendNotificationOnInterfaceChange_append,
    sendNotificationOnInterfaceChange_single, List.append_assoc]

theorem isInterfaceInConfig_eq_false {name : String} {list : List String} (h : name ∉ list) :
    isInterfaceInConfig name list = false := by
  cases hb : isInterfaceInConfig name list with
  | false => rfl
  | true => exact absurd ((isInterfaceInConfig_iff _ _).1 hb) h

theorem isNewInterfaceInOldInterfaces_eq_false {name : String} {old : List NetInterface}
    (h : ∀ O ∈ old, O.Name ≠ name) : isNewInterfaceInOldInterfaces name old = false := by
  cases hb : isNewInterfaceInOldInterfaces name old with
  | false => rfl
  | true =>
    obtain ⟨O, hO, hn⟩ := (isNewInterfaceInOldInterfaces_iff _ _).1 hb
    exact absurd hn (h O hO)

/-- An unwatched entry never notifies. -/
theorem notifies_of_not_watched {oldInterfaces : List NetInterface} {config : Config}
    {e : NetInterface} (h : e.Name ∉ config.Interfaces) :
    notifies oldInterfaces config e = false := by
  have hc := isInterfaceInConfig_eq_false h
  unfold notifies
  cases hg : getOldInterfaceByName e.Name oldInterfaces with
  | none => simp [hc]
  | some o =>
    have hname := (getOldInterfaceByName_some hg).2
    simp [hc, hname]

/-- A watched entry whose name has a previous entry notifies exactly when
`difference` of the two address lists is non-empty. -/
theorem notifies_of_old {oldInterfaces : List NetInterface} {config : Config}
    {e o : NetInterface} (hw : e.Name ∈ config.Interfaces)
    (hg : getOldInterfaceByName e.Name oldInterfaces = some o) :
    notifies oldInterfaces config e = decide (difference o.IP e.IP ≠ []) := by
  have hc := (isInterfaceInConfig_iff _ _).2 hw
  obtain ⟨hmem, hname⟩ := getOldInterfaceByName_some hg
  have hnew : isNewInterfaceInOldInterfaces e.Name oldInterfaces = true :=
    (isNewInterfaceInOldInterfaces_iff _ _).2 ⟨o, hmem, hname⟩
  have hlen : oldInterfaces.length ≠ 0 := by
    intro hl
    rw [List.length_eq_zero.1 hl] at hmem
    simp at hmem
  unfold notifies
  simp only [hg, hnew, hname, hc]
  simp [hlen, List.length_pos]

/-- A watched entry whose name has no previous entry notifies. -/
theorem notifies_of_new {oldInterfaces : List NetInterface} {config : Config}
    {e : NetInterface} (hw : e.Name ∈ config.Interfaces)
    (hnew : ∀ O ∈ oldInterfaces, O.Name ≠ e.Name) :
    notifies oldInterfaces config e = true := by
  have hc := (isInterfaceInConfig_iff _ _).2 hw
  have hn := isNewInterfaceInOldInterfaces_eq_false hnew
  unfold notifies
  simp [hc, hn]

theorem getOldInterfaceByName_self {S : List NetInterface} (hS : (S.map (·.Name)).Nodup)
    {e : NetInterface} (he : e ∈ S) : getOldInterfaceByName e.Name S = some e := by
  induction S with
  | nil => simp at he
  | cons o S ih =>
    rw [List.map_cons, List.nodup_cons] at hS
    rcases List.mem_cons.1 he with rfl | hmem
    · simp [getOldInterfaceByName]
    · have hne : ¬ e.Name = o.Name := by
        intro heq
        apply hS.1
        rw [← heq]
        exact List.mem_map_of_mem _ hmem
      simp [getOldInterfaceByName, hne, ih hS.2 hmem]

/-! ## Auxiliary facts about the snapshot builder -/

theorem addIPToInterfaces_search_iff (ifaceName ip : String) (interfaces : List NetInterface) :
    addIPToInterfaces.search ifaceName ip interfaces = true
      ↔ ifaceName ∈ interfaces.map (fun E => E.Name) := by
  induction interfaces with
  | nil => simp [addIPToInterfaces.search]
  | cons e rest ih =>
    by_cases h : e.Name = ifaceName
    · simp [addIPToInterfaces.search, h]
    · have h2 : ¬ ifaceName = e.Name := fun e => h e.symm
      simp only [addIPToInterfaces.search, h, if_false, ih]
      simp [h2]

theorem addIPToInterfaces_of_mem {interfaces : List NetInterface} {ifaceName : String}
    (ip : String) (h : ifaceName ∈ interfaces.map (fun E => E.Name)) :
    addIPToInterfaces interfaces ifaceName ip = interfaces := by
  have hs := (addIPToInterfaces_search_iff ifaceName ip interfaces).2 h
  simp [addIPToInterfaces, hs]

theorem addIPToInterfaces_of_not_mem {interfaces : List NetInterface} {ifaceName : String}
    (ip : String) (h : ifaceName ∉ interfaces.map (fun E => E.Name)) :
    addIPToInterfaces interfaces ifaceName ip
      = interfaces ++ [{ Name := ifaceName, IP := [ip] }] := by
  have hs : addIPToInterfaces.search ifaceName ip interfaces = false := by
    cases hb : addIPToInterfaces.search ifaceName ip interfaces with
    | false => rfl
    | true => exact absurd ((addIPToInterfaces_search_iff _ _ _).1 hb) h
  simp [addIPToInterfaces, hs]

theorem addIPToInterfaces_names_nodup (interfaces : List NetInterface) (ifaceName ip : String)
    (h : (interfaces.map (fun E => E.Name)).Nodup) :
    ((addIPToInterfaces interfaces ifaceName ip).map (fun E => E.Name)).Nodup := by
  by_cases hm : ifaceName ∈ interfaces.map (fun E => E.Name)
  · rw [addIPToInterfaces_of_mem ip hm]
    exact h
  · rw [addIPToInterfaces_of_not_mem ip hm, List.map_append, List.map_singleton]
    refine List.Nodup.append h (List.nodup_singleton _) ?_
    intro x hx hx2
    rw [List.mem_singleton] at hx2
    subst hx2
    exact hm hx

/-- The distinct elements of a list of names, each at the place of its first
occurrence. -/
def firstSeen : List String → List String
  | [] => []
  | n :: rest => n :: (firstSeen rest).filter (fun m => decide (m ≠ n))

theorem mem_firstSeen (l : List String) (n : String) : n ∈ firstSeen l ↔ n ∈ l := by
  induction l with
  | nil => simp [firstSeen]
  | cons x xs ih =>
    by_cases h : n = x
    · simp [firstSeen, h]
    · simp [firstSeen, h, ih]

theorem firstSeen_nodup (l : List String) : (firstSeen l).Nodup := by
  induction l with
  | nil => simp [firstSeen]
  | cons x xs ih =>
    rw [firstSeen, List.nodup_cons]
    refine ⟨?_, ih.filter _⟩
    simp

/-- The fold of `addIPToInterfaces` from any snapshot: the names already there
stay in place, and the names not yet there follow in first-seen order. -/
theorem foldl_addIPToInterfaces_names (raw : List (String × String))
    (interfaces : List NetInterface) :
    (raw.foldl (fun acc p => addIPToInterfaces acc p.1 p.2) interfaces).map (fun E => E.Name)
      = interfaces.map (fun E => E.Name)
        ++ (firstSeen (raw.map Prod.fst)).filter
            (fun m => decide (m ∉ interfaces.map (fun E => E.Name))) := by
  induction raw generalizing interfaces with
  | nil => simp [firstSeen]
  | cons p raw ih =>
    rw [List.foldl_cons, ih]
    by_cases hm : p.1 ∈ interfaces.map (fun E => E.Name)
    · rw [addIPToInterfaces_of_mem p.2 hm]
      congr 1
      simp only [List.map_cons, firstSeen, List.filter_cons, hm, not_true_eq_false,
        decide_False, Bool.false_eq_true, if_false, List.filter_filter]
      apply List.filter_congr
      intro m _
      by_cases hmm : m ∈ interfaces.map (fun E => E.Name)
      · simp [hmm]
      · have : m ≠ p.1 := fun e => hmm (e ▸ hm)
        simp [hmm, this]
    · rw [addIPToInterfaces_of_not_mem p.2 hm]
      simp only [List.map_cons, firstSeen, List.filter_cons, hm, not_false_eq_true,
        decide_True, if_true, List.filter_filter, List.map_append, List.map_nil,
        List.append_assoc, List.singleton_append]
      congr 2
      apply List.filter_congr
      intro m _
      by_cases hmm : m = p.1
      · simp [hmm]
      · simp [hmm]

theorem getInterfaceIPs_names (raw : List (String × String)) :
    (getInterfaceIPs raw).map (fun E => E.Name) = firstSeen (raw.map Prod.fst) := by
  rw [getInterfaceIPs, foldl_addIPToInterfaces_names]
  simp

theorem indexOf_filter_lt_iff (p : String → Bool) (l : List String) (n m : String)
    (hn : p n = true) (hm : p m = true) :
    (l.filter p).indexOf n < (l.filter p).indexOf m ↔ l.indexOf n < l.indexOf m := by
  induction l with
  | nil => simp
  | cons y ys ih =>
    by_cases hy : p y = true
    · rw [List.filter_cons_of_pos hy]
      by_cases h1 : y = n <;> by_cases h2 : y = m
      · rw [List.indexOf_cons_eq _ h1, List.indexOf_cons_eq _ h2, List.indexOf_cons_eq _ h1,
          List.indexOf_cons_eq _ h2]
      · rw [List.indexOf_cons_eq _ h1, List.indexOf_cons_ne _ h2, List.indexOf_cons_eq _ h1,
          List.indexOf_cons_ne _ h2]
        simp
      · rw [List.indexOf_cons_ne _ h1, List.indexOf_cons_eq _ h2, List.indexOf_cons_ne _ h1,
          List.indexOf_cons_eq _ h2]
        simp
      · rw [List.indexOf_cons_ne _ h1, List.indexOf_cons_ne _ h2, List.indexOf_cons_ne _ h1,
          List.indexOf_cons_ne _ h2]
        simp [ih]
    · rw [List.filter_cons_of_neg hy]
      have h1 : y ≠ n := fun e => hy (e ▸ hn)
      have h2 : y ≠ m := fun e => hy (e ▸ hm)
      rw [List.indexOf_cons_ne _ h1, List.indexOf_cons_ne _ h2]
      simp [ih]

theorem indexOf_firstSeen_lt_iff (l : List String) (n m : String) :
    (firstSeen l).indexOf n < (firstSeen l).indexOf m ↔ l.indexOf n < l.indexOf m := by
  induction l with
  | nil => simp [firstSeen]
  | cons x xs ih =>
    rw [firstSeen]
    by_cases h1 : x = n <;> by_cases h2 : x = m
    · rw [List.indexOf_cons_eq _ h1, List.indexOf_cons_eq _ h2, List.indexOf_cons_eq _ h1,
        List.indexOf_cons_eq _ h2]
    · rw [List.indexOf_cons_eq _ h1, List.indexOf_cons_ne _ h2, List.indexOf_cons_eq _ h1,
        List.indexOf_cons_ne _ h2]
      simp
    · rw [List.indexOf_cons_ne _ h1, List.indexOf_cons_eq _ h2, List.indexOf_cons_ne _ h1,
        List.indexOf_cons_eq _ h2]
      simp
    · have hn : (fun k => decide (k ≠ x)) n = true := by
        simpa using fun e => h1 e.symm
      have hm : (fun k => decide (k ≠ x)) m = true := by
        simpa using fun e => h2 e.symm
      have hf := indexOf_filter_lt_iff (fun k => decide (k ≠ x)) (firstSeen xs) n m hn hm
      rw [List.indexOf_cons_ne _ h1, List.indexOf_cons_ne _ h2, List.indexOf_cons_ne _ h1,
        List.indexOf_cons_ne _ h2]
      rw [Nat.succ_lt_succ_iff, Nat.succ_lt_succ_iff, hf, ih]

theorem sendNotificationOnInterfaceChange_sublist (newInterfaces oldInterfaces : List NetInterface)
    (config : Config) :
    List.Sublist (sendNotificationOnInterfaceChange newInterfaces oldInterfaces config)
      newInterfaces := by
  rw [sendNotificationOnInterfaceChange_eq_filter]
  exact List.filter_sublist _

/-- The fold of `addIPToInterfaces` from any snapshot: an entry of the result is
an entry of the start, or has a name new to the start and holds the single
address of the first observation of that name. -/
theorem foldl_addIPToInterfaces_entries (raw : List (String × String))
    (interfaces : List NetInterface) :
    ∀ E ∈ raw.foldl (fun acc p => addIPToInterfaces acc p.1 p.2) interfaces,
      E ∈ interfaces
      ∨ (E.Name ∉ interfaces.map (fun I => I.Name)
          ∧ ∃ ip, E.IP = [ip]
              ∧ raw.find? (fun p => decide (p.1 = E.Name)) = some (E.Name, ip)) := by
  induction raw generalizing interfaces with
  | nil =>
    intro E hE
    exact Or.inl hE
  | cons p raw ih =>
    intro E hE
    rw [List.foldl_cons] at hE
    by_cases hm : p.1 ∈ interfaces.map (fun I => I.Name)
    · rw [addIPToInterfaces_of_mem p.2 hm] at hE
      rcases ih interfaces E hE with h | ⟨hn, ip, hip, hf⟩
      · exact Or.inl h
      · refine Or.inr ⟨hn, ip, hip, ?_⟩
        have hne : ¬ p.1 = E.Name := fun e => hn (e ▸ hm)
        rw [List.find?_cons_of_neg _ (by simpa using hne)]
        exact hf
    · rw [addIPToInterfaces_of_not_mem p.2 hm] at hE
      rcases ih _ E hE with h | ⟨hn, ip, hip, hf⟩
      · rcases List.mem_append.1 h with h1 | h1
        · exact Or.inl h1
        · rw [List.mem_singleton] at h1
          subst h1
          refine Or.inr ⟨hm, p.2, rfl, ?_⟩
          rw [List.find?_cons_of_pos _ (by simp)]
      · rw [List.map_append, List.mem_append, not_or] at hn
        refine Or.inr ⟨hn.1, ip, hip, ?_⟩
        have hne : ¬ p.1 = E.Name := by
          intro e
          apply hn.2
          simp [e]
        rw [List.find?_cons_of_neg _ (by simpa using hne)]
        exact hf

theorem getInterfaceIPs_append (raw1 raw2 : List (String × String)) :
    getInterfaceIPs (raw1 ++ raw2)
      = raw2.foldl (fun acc p => addIPToInterfaces acc p.1 p.2) (getInterfaceIPs raw1) := by
  simp [getInterfaceIPs, List.foldl_append]

/-! ## Auxiliary facts about the dispatcher -/

/-- The lines one receiver contributes: Slack first, then Email. -/
def receiverLines (newInterface : NetInterface) (receiver : NotificationReceiver) :
    List LogLine :=
  (if receiver.SlackConfig.isSome then [⟨"Send to Slack", newInterface⟩] else [])
    ++ (if receiver.EmailConfig.isSome then [⟨"Send to Email", newInterface⟩] else [])

theorem sendNotification_receivers_cons (E : NetInterface) (r : NotificationReceiver)
    (rs : List NotificationReceiver) :
    sendNotification.receivers E (r :: rs)
      = receiverLines E r ++ sendNotification.receivers E rs := by
  cases hs : r.SlackConfig <;> cases he : r.EmailConfig <;>
    simp [sendNotification.receivers, receiverLines, hs, he]

theorem sendNotification_receivers_append (E : NetInterface)
    (rs1 rs2 : List NotificationReceiver) :
    sendNotification.receivers E (rs1 ++ rs2)
      = sendNotification.receivers E rs1 ++ sendNotification.receivers E rs2 := by
  induction rs1 with
  | nil => simp [sendNotification.receivers]
  | cons r rs1 ih =>
    rw [List.cons_append, sendNotification_receivers_cons, sendNotification_receivers_cons, ih,
      List.append_assoc]

theorem sendNotification_receivers_eq_flatten (E : NetInterface)
    (rs : List NotificationReceiver) :
    sendNotification.receivers E rs = (rs.map (receiverLines E)).flatten := by
  induction rs with
  | nil => simp [sendNotification.receivers]
  | cons r rs ih => rw [sendNotification_receivers_cons, ih, List.map_cons, List.flatten_cons]

theorem deliveries_receiverLines (E : NetInterface) (r : NotificationReceiver) :
    deliveries (receiverLines E r) = receiverLines E r := by
  cases hs : r.SlackConfig <;> cases he : r.EmailConfig <;>
    simp [deliveries, receiverLines, hs, he]

theorem deliveries_receivers (E : NetInterface) (rs : List NotificationReceiver) :
    deliveries (sendNotification.receivers E rs) = sendNotification.receivers E rs := by
  induction rs with
  | nil => simp [sendNotification.receivers, deliveries]
  | cons r rs ih =>
    rw [sendNotification_receivers_cons]
    have h1 := deliveries_receiverLines E r
    unfold deliveries at h1 ih ⊢
    rw [List.filter_append, h1, ih]

theorem deliveries_sendNotification (E : NetInterface) (config : Config) :
    deliveries (sendNotification E config) = sendNotification.receivers E config.Receivers := by
  have h := deliveries_receivers E config.Receivers
  unfold deliveries at h ⊢
  rw [sendNotification, List.filter_cons_of_neg (by simp), h]

theorem receivers_count_slack (E : NetInterface) (rs : List NotificationReceiver) :
    ((sendNotification.receivers E rs).filter
        (fun l => decide (l.Message = "Send to Slack"))).length
      = rs.countP (fun r => r.SlackConfig.isSome) := by
  induction rs with
  | nil => simp [sendNotification.receivers]
  | cons r rs ih =>
    rw [sendNotification_receivers_cons, List.filter_append, List.length_append, ih,
      List.countP_cons]
    cases hs : r.SlackConfig <;> cases he : r.EmailConfig <;>
      simp [receiverLines, hs, he, Nat.add_comm]

theorem receivers_count_email (E : NetInterface) (rs : List NotificationReceiver) :
    ((sendNotification.receivers E rs).filter
        (fun l => decide (l.Message = "Send to Email"))).length
      = rs.countP (fun r => r.EmailConfig.isSome) := by
  induction rs with
  | nil => simp [sendNotification.receivers]
  | cons r rs ih =>
    rw [sendNotification_receivers_cons, List.filter_append, List.length_append, ih,
      List.countP_cons]
    cases hs : r.SlackConfig <;> cases he : r.EmailConfig <;>
      simp [receiverLines, hs, he, Nat.add_comm]

theorem receivers_length (E : NetInterface) (rs : List NotificationReceiver) :
    (sendNotification.receivers E rs).length
      = rs.countP (fun r => r.SlackConfig.isSome) + rs.countP (fun r => r.EmailConfig.isSome) := by
  induction rs with
  | nil => simp [sendNotification.receivers]
  | cons r rs ih =>
    rw [sendNotification_receivers_cons, List.length_append, ih, List.countP_cons,
      List.countP_cons]
    cases hs : r.SlackConfig <;> cases he : r.EmailConfig <;>
      simp [receiverLines, hs, he] <;> omega

theorem receivers_interface (E : NetInterface) (rs : List NotificationReceiver) :
    ∀ l ∈ sendNotification.receivers E rs, l.Interface = E := by
  induction rs with
  | nil => simp [sendNotification.receivers]
  | cons r rs ih =>
    rw [sendNotification_receivers_cons]
    intro l hl
    rcases List.mem_append.1 hl with h | h
    · unfold receiverLines at h
      rcases List.mem_append.1 h with h1 | h1
      · by_cases hs : r.SlackConfig.isSome = true
        · rw [if_pos hs, List.mem_singleton] at h1
          rw [h1]
        · rw [if_neg hs] at h1
          exact absurd h1 (List.not_mem_nil _)
      · by_cases he : r.EmailConfig.isSome = true
        · rw [if_pos he, List.mem_singleton] at h1
          rw [h1]
        · rw [if_neg he] at h1
          exact absurd h1 (List.not_mem_nil _)
    · exact ih l h

/-! ## The claims -/

/-- C1 (watch-list gate): an entry of the new snapshot whose name is not in
`config.Interfaces` produces no event at its position, whatever the previous
snapshot is, and no event of any run carries such an entry. -/
theorem watch_list_gate (pre post oldInterfaces : List NetInterface) (config : Config)
    (E : NetInterface) (hE : E.Name ∉ config.Interfaces) :
    sendNotificationOnInterfaceChange (pre ++ E :: post) oldInterfaces config
        = sendNotificationOnInterfaceChange pre oldInterfaces config
          ++ sendNotificationOnInterfaceChange post oldInterfaces config
      ∧ ∀ newInterfaces : List NetInterface,
          E ∉ sendNotificationOnInterfaceChange newInterfaces oldInterfaces config := by
  constructor
  · rw [sendNotificationOnInterfaceChange_insert, notifies_of_not_watched hE]
    simp
  · intro newInterfaces hmem
    rw [sendNotificationOnInterfaceChange_eq_filter, List.mem_filter] at hmem
    rw [notifies_of_not_watched hE] at hmem
    exact absurd hmem.2 (by simp)

theorem watch_list_gate_witness :
    sendNotificationOnInterfaceChange
        ([⟨"eth0", ["1.1.1.1"]⟩] ++ ⟨"lo", ["127.0.0.1"]⟩ :: [⟨"wlan0", ["2.2.2.2"]⟩])
        [] ⟨["eth0", "wlan0"], []⟩
        = sendNotificationOnInterfaceChange [⟨"eth0", ["1.1.1.1"]⟩] [] ⟨["eth0", "wlan0"], []⟩
          ++ sendNotificationOnInterfaceChange [⟨"wlan0", ["2.2.2.2"]⟩] []
              ⟨["eth0", "wlan0"], []⟩
      ∧ ∀ newInterfaces : List NetInterface,
          (⟨"lo", ["127.0.0.1"]⟩ : NetInterface)
            ∉ sendNotificationOnInterfaceChange newInterfaces [] ⟨["eth0", "wlan0"], []⟩ :=
  watch_list_gate [⟨"eth0", ["1.1.1.1"]⟩] [⟨"wlan0", ["2.2.2.2"]⟩] [] ⟨["eth0", "wlan0"], []⟩
    ⟨"lo", ["127.0.0.1"]⟩ (by decide)

/-- C2 (address-changed rule): for a watched entry `E` of the new snapshot whose
name has a first previous entry `O`, the entry yields an event at its position
when some address is in exactly one of `O.IP` and `E.IP`, and no event when the
two lists hold the same addresses.  The two examples of the spec: same
cardinality with different content gives one event, identical lists give none. -/
theorem address_changed_rule :
    (∀ (pre post oldInterfaces : List NetInterface) (config : Config) (E O : NetInterface),
        E.Name ∈ config.Interfaces →
        oldInterfaces.find? (fun o => decide (o.Name = E.Name)) = some O →
        ((¬ ∀ x, x ∈ O.IP ↔ x ∈ E.IP) →
            sendNotificationOnInterfaceChange (pre ++ E :: post) oldInterfaces config
              = sendNotificationOnInterfaceChange pre oldInterfaces config
                ++ E :: sendNotificationOnInterfaceChange post oldInterfaces config)
        ∧ ((∀ x, x ∈ O.IP ↔ x ∈ E.IP) →
            sendNotificationOnInterfaceChange (pre ++ E :: post) oldInterfaces config
              = sendNotificationOnInterfaceChange pre oldInterfaces config
                ++ sendNotificationOnInterfaceChange post oldInterfaces config)
        ∧ (E ∈ sendNotificationOnInterfaceChange (pre ++ E :: post) oldInterfaces config
            ↔ ¬ ∀ x, x ∈ O.IP ↔ x ∈ E.IP))
    ∧ (∀ config : Config, "eth0" ∈ config.Interfaces →
        sendNotificationOnInterfaceChange [⟨"eth0", ["1.1.1.1", "2.2.2.2"]⟩]
            [⟨"eth0", ["1.1.1.1", "3.3.3.3"]⟩] config
          = [⟨"eth0", ["1.1.1.1", "2.2.2.2"]⟩])
    ∧ (∀ config : Config, "eth0" ∈ config.Interfaces →
        sendNotificationOnInterfaceChange [⟨"eth0", ["1.1.1.1"]⟩]
            [⟨"eth0", ["1.1.1.1"]⟩] config
          = []) := by
  refine ⟨?_, ?_, ?_⟩
  · intro pre post oldInterfaces config E O hw hO
    have hg : getOldInterfaceByName E.Name oldInterfaces = some O := by
      rw [getOldInterfaceByName_eq_find, ← hO]
      congr 1
      funext o
      exact decide_eq_decide.2 eq_comm
    have hn := notifies_of_old hw hg
    have hyes : (¬ ∀ x, x ∈ O.IP ↔ x ∈ E.IP) →
        sendNotificationOnInterfaceChange (pre ++ E :: post) oldInterfaces config
          = sendNotificationOnInterfaceChange pre oldInterfaces config
            ++ E :: sendNotificationOnInterfaceChange post oldInterfaces config := by
      intro hd
      have hne : difference O.IP E.IP ≠ [] := fun h => hd ((difference_eq_nil_iff _ _).1 h)
      rw [sendNotificationOnInterfaceChange_insert, hn]
      simp [hne]
    refine ⟨hyes, ?_, ?_⟩
    · intro hs
      have he : difference O.IP E.IP = [] := (difference_eq_nil_iff _ _).2 hs
      rw [sendNotificationOnInterfaceChange_insert, hn]
      simp [he]
    · constructor
      · intro hmem hs
        rw [sendNotificationOnInterfaceChange_eq_filter, List.mem_filter, hn] at hmem
        have he : difference O.IP E.IP = [] := (difference_eq_nil_iff _ _).2 hs
        simp [he] at hmem
      · intro hd
        rw [hyes hd]
        simp
  · intro config hw
    have hc := (isInterfaceInConfig_iff _ _).2 hw
    simp [sendNotificationOnInterfaceChange, isNewInterfaceInOldInterfaces,
      getOldInterfaceByName, hc]
    decide
  · intro config hw
    have hc := (isInterfaceInConfig_iff _ _).2 hw
    simp [sendNotificationOnInterfaceChange, isNewInterfaceInOldInterfaces,
      getOldInterfaceByName, hc]
    decide

theorem address_changed_rule_witness :
    sendNotificationOnInterfaceChange
        ([⟨"lo", ["127.0.0.1"]⟩] ++ ⟨"eth0", ["10.0.0.2", "10.0.0.1"]⟩ :: [])
        [⟨"eth0", ["10.0.0.1"]⟩, ⟨"eth0", ["10.0.0.1", "10.0.0.2"]⟩] ⟨["eth0"], []⟩
      = sendNotificationOnInterfaceChange [⟨"lo", ["127.0.0.1"]⟩]
          [⟨"eth0", ["10.0.0.1"]⟩, ⟨"eth0", ["10.0.0.1", "10.0.0.2"]⟩] ⟨["eth0"], []⟩
        ++ ⟨"eth0", ["10.0.0.2", "10.0.0.1"]⟩ :: sendNotificationOnInterfaceChange []
          [⟨"eth0", ["10.0.0.1"]⟩, ⟨"eth0", ["10.0.0.1", "10.0.0.2"]⟩] ⟨["eth0"], []⟩ :=
  (address_changed_rule.1 [⟨"lo", ["127.0.0.1"]⟩] []
    [⟨"eth0", ["10.0.0.1"]⟩, ⟨"eth0", ["10.0.0.1", "10.0.0.2"]⟩] ⟨["eth0"], []⟩
    ⟨"eth0", ["10.0.0.2", "10.0.0.1"]⟩ ⟨"eth0", ["10.0.0.1"]⟩ (by decide) (by decide)).1
    (fun h => absurd ((h "10.0.0.2").2 (by decide)) (by decide))

/-- C3 (first-run rule): with an empty previous snapshot the events are exactly
the entries of the new snapshot whose name is in the watch list, in order. -/
theorem first_run_rule (S : List NetInterface) (config : Config) :
    sendNotificationOnInterfaceChange S [] config
      = S.filter (fun E => decide (E.Name ∈ config.Interfaces)) := by
  rw [sendNotificationOnInterfaceChange_eq_filter]
  congr 1
  funext E
  by_cases hw : E.Name ∈ config.Interfaces
  · have hc := (isInterfaceInConfig_iff _ _).2 hw
    simp [notifies, hc, hw]
  · rw [notifies_of_not_watched hw]
    simp [hw]

/-- C4 (newly-appeared rule): against a non-empty previous snapshot, a watched
entry of the new snapshot whose name no previous entry has yields exactly one
event at its position, whatever its addresses. -/
theorem newly_appeared_rule (pre post oldInterfaces : List NetInterface) (config : Config)
    (E : NetInterface) (_hne : oldInterfaces ≠ []) (hw : E.Name ∈ config.Interfaces)
    (hnew : ∀ O ∈ oldInterfaces, O.Name ≠ E.Name) :
    sendNotificationOnInterfaceChange (pre ++ E :: post) oldInterfaces config
      = sendNotificationOnInterfaceChange pre oldInterfaces config
        ++ E :: sendNotificationOnInterfaceChange post oldInterfaces config := by
  rw [sendNotificationOnInterfaceChange_insert, notifies_of_new hw hnew]
  simp

theorem newly_appeared_rule_witness :
    sendNotificationOnInterfaceChange
        ([⟨"eth0", ["1.1.1.1"]⟩] ++ ⟨"wlan0", ["2.2.2.2"]⟩ :: [])
        [⟨"eth0", ["1.1.1.1"]⟩] ⟨["eth0", "wlan0"], []⟩
      = sendNotificationOnInterfaceChange [⟨"eth0", ["1.1.1.1"]⟩]
          [⟨"eth0", ["1.1.1.1"]⟩] ⟨["eth0", "wlan0"], []⟩
        ++ ⟨"wlan0", ["2.2.2.2"]⟩ :: sendNotificationOnInterfaceChange []
          [⟨"eth0", ["1.1.1.1"]⟩] ⟨["eth0", "wlan0"], []⟩ :=
  newly_appeared_rule [⟨"eth0", ["1.1.1.1"]⟩] [] [⟨"eth0", ["1.1.1.1"]⟩]
    ⟨["eth0", "wlan0"], []⟩ ⟨"wlan0", ["2.2.2.2"]⟩ (by decide) (by decide) (by decide)

/-- C5 (no change, no event): a snapshot with pairwise-distinct entry names,
compared with itself under a non-empty watch list, yields no event. -/
theorem no_change_no_event (S : List NetInterface) (config : Config)
    (hS : (S.map (fun E => E.Name)).Nodup) (_hw : config.Interfaces ≠ []) :
    sendNotificationOnInterfaceChange S S config = [] := by
  rw [sendNotificationOnInterfaceChange_eq_filter, List.filter_eq_nil_iff]
  intro E hE
  by_cases hw : E.Name ∈ config.Interfaces
  · rw [notifies_of_old hw (getOldInterfaceByName_self hS hE)]
    have : difference E.IP E.IP = [] := (difference_eq_nil_iff _ _).2 (fun _ => Iff.rfl)
    simp [this]
  · rw [notifies_of_not_watched hw]
    simp

theorem no_change_no_event_witness :
    sendNotificationOnInterfaceChange
      [⟨"eth0", ["1.1.1.1", "1.1.1.1"]⟩, ⟨"wlan0", ["2.2.2.2"]⟩]
      [⟨"eth0", ["1.1.1.1", "1.1.1.1"]⟩, ⟨"wlan0", ["2.2.2.2"]⟩] ⟨["eth0", "wlan0"], []⟩ = [] :=
  no_change_no_event [⟨"eth0", ["1.1.1.1", "1.1.1.1"]⟩, ⟨"wlan0", ["2.2.2.2"]⟩]
    ⟨["eth0", "wlan0"], []⟩ (by decide) (by decide)

/-- C6 (builder merges addresses), evaluated on the example of the claim: the
second address observed for `eth0` is not in the built entry, which is
`{eth0, [a]}` and not `{eth0, [a, b]}`. -/
theorem builder_second_address_dropped :
    getInterfaceIPs [("eth0", "a"), ("eth0", "b")] = [⟨"eth0", ["a"]⟩]
      ∧ getInterfaceIPs [("eth0", "a"), ("eth0", "b")] ≠ [⟨"eth0", ["a", "b"]⟩] := by
  decide

/-- C7 (snapshot name uniqueness): `addIPToInterfaces` keeps entry names
pairwise distinct; the built snapshot has pairwise-distinct names, exactly one
entry for each observed name and none for any other name, and its names stand
in the order of their first occurrence in the input. -/
theorem snapshot_names_unique :
    (∀ (interfaces : List NetInterface) (ifaceName ip : String),
        (interfaces.map (fun E => E.Name)).Nodup →
        ((addIPToInterfaces interfaces ifaceName ip).map (fun E => E.Name)).Nodup)
    ∧ ∀ raw : List (String × String),
        ((getInterfaceIPs raw).map (fun E => E.Name)).Nodup
        ∧ (∀ n : String,
            ((getInterfaceIPs raw).filter (fun E => decide (E.Name = n))).length
              = if n ∈ raw.map Prod.fst then 1 else 0)
        ∧ (∀ n m : String,
            ((getInterfaceIPs raw).map (fun E => E.Name)).indexOf n
                < ((getInterfaceIPs raw).map (fun E => E.Name)).indexOf m
              ↔ (raw.map Prod.fst).indexOf n < (raw.map Prod.fst).indexOf m) := by
  refine ⟨addIPToInterfaces_names_nodup, fun raw => ⟨?_, ?_, ?_⟩⟩
  · rw [getInterfaceIPs_names]
    exact firstSeen_nodup _
  · intro n
    have hcount : ((getInterfaceIPs raw).filter (fun E => decide (E.Name = n))).length
        = ((getInterfaceIPs raw).map (fun E => E.Name)).count n := by
      rw [List.count, List.countP_map, List.countP_eq_length_filter]
      congr 2
    rw [hcount, getInterfaceIPs_names]
    by_cases h : n ∈ raw.map Prod.fst
    · rw [if_pos h]
      exact List.count_eq_one_of_mem (firstSeen_nodup _) ((mem_firstSeen _ _).2 h)
    · rw [if_neg h]
      exact List.count_eq_zero_of_not_mem (fun hm => h ((mem_firstSeen _ _).1 hm))
  · intro n m
    rw [getInterfaceIPs_names]
    exact indexOf_firstSeen_lt_iff _ n m

theorem snapshot_names_unique_witness :
    ((addIPToInterfaces [⟨"eth0", ["a"]⟩, ⟨"lo", ["b"]⟩] "eth0" "c").map
      (fun E => E.Name)).Nodup :=
  snapshot_names_unique.1 [⟨"eth0", ["a"]⟩, ⟨"lo", ["b"]⟩] "eth0" "c" (by decide)

/-- C8 (symmetric difference): a string occurs in `difference a b` exactly when
it occurs in exactly one of `a` and `b`; the result is empty exactly when `a`
and `b` hold the same elements; and it lists the elements of `a` not in `b` in
the order of `a`, then the elements of `b` not in `a` in the order of `b`. -/
theorem symmetric_difference (a b : List String) :
    (∀ x : String, x ∈ difference a b ↔ (x ∈ a ∧ x ∉ b) ∨ (x ∈ b ∧ x ∉ a))
    ∧ (difference a b = [] ↔ ∀ x : String, x ∈ a ↔ x ∈ b)
    ∧ difference a b
        = a.filter (fun s => decide (s ∉ b)) ++ b.filter (fun s => decide (s ∉ a)) :=
  ⟨mem_difference_iff a b, difference_eq_nil_iff a b, difference_eq a b⟩

/-- C9 (ordered output carrying the new state): the events form a sublist of
the new snapshot, so each event is an entry of the new snapshot with its new
addresses; an entry yields no event or one event at its position; and a name
that only the previous snapshot has is the name of no event. -/
theorem ordered_output (newInterfaces oldInterfaces : List NetInterface) (config : Config) :
    List.Sublist (sendNotificationOnInterfaceChange newInterfaces oldInterfaces config)
        newInterfaces
    ∧ (∀ E ∈ sendNotificationOnInterfaceChange newInterfaces oldInterfaces config,
        E ∈ newInterfaces)
    ∧ (∀ (pre post : List NetInterface) (E : NetInterface), newInterfaces = pre ++ E :: post →
        sendNotificationOnInterfaceChange newInterfaces oldInterfaces config
            = sendNotificationOnInterfaceChange pre oldInterfaces config
              ++ sendNotificationOnInterfaceChange post oldInterfaces config
          ∨ sendNotificationOnInterfaceChange newInterfaces oldInterfaces config
            = sendNotificationOnInterfaceChange pre oldInterfaces config
              ++ E :: sendNotificationOnInterfaceChange post oldInterfaces config)
    ∧ (∀ E : NetInterface,
        (sendNotificationOnInterfaceChange newInterfaces oldInterfaces config).count E
          ≤ newInterfaces.count E)
    ∧ (∀ O ∈ oldInterfaces, (∀ E ∈ newInterfaces, E.Name ≠ O.Name) →
        ∀ ev ∈ sendNotificationOnInterfaceChange newInterfaces oldInterfaces config,
          ev.Name ≠ O.Name) := by
  have hsub := sendNotificationOnInterfaceChange_sublist newInterfaces oldInterfaces config
  refine ⟨hsub, fun E hE => hsub.subset hE, ?_, fun E => hsub.count_le E, ?_⟩
  · intro pre post E hnew
    rw [hnew, sendNotificationOnInterfaceChange_insert]
    by_cases h : notifies oldInterfaces config E = true
    · right
      simp [h]
    · left
      simp [h]
  · intro O _ hO ev hev
    exact hO ev (hsub.subset hev)

theorem ordered_output_witness :
    ∀ ev ∈ sendNotificationOnInterfaceChange [⟨"eth0", ["1.1.1.1"]⟩]
        [⟨"eth0", ["3.3.3.3"]⟩, ⟨"wlan0", ["2.2.2.2"]⟩] ⟨["eth0", "wlan0"], []⟩,
      ev.Name ≠ "wlan0" :=
  (ordered_output [⟨"eth0", ["1.1.1.1"]⟩] [⟨"eth0", ["3.3.3.3"]⟩, ⟨"wlan0", ["2.2.2.2"]⟩]
    ⟨["eth0", "wlan0"], []⟩).2.2.2.2 ⟨"wlan0", ["2.2.2.2"]⟩ (by decide) (by decide)

/-- C10 (one event per interface per run): when the entry names of the new
snapshot are pairwise distinct, so are the interface names of the events. -/
theorem one_event_per_interface (newInterfaces oldInterfaces : List NetInterface)
    (config : Config) (h : (newInterfaces.map (fun E => E.Name)).Nodup) :
    ((sendNotificationOnInterfaceChange newInterfaces oldInterfaces config).map
      (fun E => E.Name)).Nodup :=
  List.Nodup.sublist
    ((sendNotificationOnInterfaceChange_sublist newInterfaces oldInterfaces config).map _) h

theorem one_event_per_interface_witness :
    ((sendNotificationOnInterfaceChange
        [⟨"eth0", ["1.1.1.1"]⟩, ⟨"wlan0", ["2.2.2.2"]⟩] [⟨"eth0", ["3.3.3.3"]⟩]
        ⟨["eth0", "wlan0"], []⟩).map (fun E => E.Name)).Nodup :=
  one_event_per_interface [⟨"eth0", ["1.1.1.1"]⟩, ⟨"wlan0", ["2.2.2.2"]⟩]
    [⟨"eth0", ["3.3.3.3"]⟩] ⟨["eth0", "wlan0"], []⟩ (by decide)

/-- C11 (dispatch fan-out): the deliveries of `sendNotification` are, receiver
by receiver in configured order, a Slack line when the Slack config is set
followed by an Email line when the Email config is set, each carrying the
event's interface; their number is the number of Slack configs plus the number
of Email configs, and the lines of a receiver stand between those of the
receivers before it and those of the receivers after it. -/
theorem dispatch_fan_out (E : NetInterface) (config : Config) :
    deliveries (sendNotification E config)
        = (config.Receivers.map (fun r =>
            (if r.SlackConfig.isSome then [(⟨"Send to Slack", E⟩ : LogLine)] else [])
              ++ (if r.EmailConfig.isSome then [(⟨"Send to Email", E⟩ : LogLine)] else []))).flatten
    ∧ (deliveries (sendNotification E config)).length
        = config.Receivers.countP (fun r => r.SlackConfig.isSome)
          + config.Receivers.countP (fun r => r.EmailConfig.isSome)
    ∧ ((sendNotification E config).filter
          (fun l => decide (l.Message = "Send to Slack"))).length
        = config.Receivers.countP (fun r => r.SlackConfig.isSome)
    ∧ ((sendNotification E config).filter
          (fun l => decide (l.Message = "Send to Email"))).length
        = config.Receivers.countP (fun r => r.EmailConfig.isSome)
    ∧ (∀ l ∈ sendNotification E config, l.Interface = E)
    ∧ (∀ (pre post : List NotificationReceiver) (r : NotificationReceiver),
        config.Receivers = pre ++ r :: post →
        deliveries (sendNotification E config)
          = deliveries (sendNotification E { config with Receivers := pre })
            ++ ((if r.SlackConfig.isSome then [(⟨"Send to Slack", E⟩ : LogLine)] else [])
              ++ (if r.EmailConfig.isSome then [(⟨"Send to Email", E⟩ : LogLine)] else []))
            ++ deliveries (sendNotification E { config with Receivers := post })) := by
  refine ⟨?_, ?_, ?_, ?_, ?_, ?_⟩
  · rw [deliveries_sendNotification, sendNotification_receivers_eq_flatten]
    rfl
  · rw [deliveries_sendNotification, receivers_length]
  · rw [sendNotification, List.filter_cons_of_neg (by simp), receivers_count_slack]
  · rw [sendNotification, List.filter_cons_of_neg (by simp), receivers_count_email]
  · intro l hl
    rw [sendNotification, List.mem_cons] at hl
    rcases hl with h | h
    · rw [h]
    · exact receivers_interface E _ l h
  · intro pre post r hr
    rw [deliveries_sendNotification, deliveries_sendNotification, deliveries_sendNotification,
      hr, sendNotification_receivers_append, sendNotification_receivers_cons, List.append_assoc]
    rfl

theorem dispatch_fan_out_witness :
    deliveries (sendNotification ⟨"eth0", ["1.1.1.1"]⟩
        ⟨["eth0"], [⟨none, none⟩, ⟨some ⟨"u", "c", "n", "i"⟩, some ⟨"t", "f", "h", "a", "p", true⟩⟩,
          ⟨none, some ⟨"t", "f", "h", "a", "p", false⟩⟩]⟩)
      = deliveries (sendNotification ⟨"eth0", ["1.1.1.1"]⟩ ⟨["eth0"], [⟨none, none⟩]⟩)
        ++ ([(⟨"Send to Slack", ⟨"eth0", ["1.1.1.1"]⟩⟩ : LogLine)]
          ++ [(⟨"Send to Email", ⟨"eth0", ["1.1.1.1"]⟩⟩ : LogLine)])
        ++ deliveries (sendNotification ⟨"eth0", ["1.1.1.1"]⟩
            ⟨["eth0"], [⟨none, some ⟨"t", "f", "h", "a", "p", false⟩⟩]⟩) :=
  (dispatch_fan_out ⟨"eth0", ["1.1.1.1"]⟩
    ⟨["eth0"], [⟨none, none⟩, ⟨some ⟨"u", "c", "n", "i"⟩, some ⟨"t", "f", "h", "a", "p", true⟩⟩,
      ⟨none, some ⟨"t", "f", "h", "a", "p", false⟩⟩]⟩).2.2.2.2.2
    [⟨none, none⟩] [⟨none, some ⟨"t", "f", "h", "a", "p", false⟩⟩]
    ⟨some ⟨"u", "c", "n", "i"⟩, some ⟨"t", "f", "h", "a", "p", true⟩⟩ rfl

/-- C12 (built entries keep only their first address): every entry of the built
snapshot holds exactly one address, the one of the first observation of its
name; adding an address for a name that already has an entry leaves the
snapshot as it is, so a later observation of a seen name changes nothing. -/
theorem built_entries_keep_first_address :
    (∀ (raw : List (String × String)), ∀ E ∈ getInterfaceIPs raw,
        E.IP.length = 1
        ∧ ∃ ip, E.IP = [ip] ∧ raw.find? (fun p => decide (p.1 = E.Name)) = some (E.Name, ip))
    ∧ (∀ (interfaces : List NetInterface) (ifaceName ip : String),
        (∃ E ∈ interfaces, E.Name = ifaceName) →
        addIPToInterfaces interfaces ifaceName ip = interfaces)
    ∧ (∀ (raw : List (String × String)) (ifaceName ip : String),
        ifaceName ∈ raw.map Prod.fst →
        getInterfaceIPs (raw ++ [(ifaceName, ip)]) = getInterfaceIPs raw) := by
  refine ⟨?_, ?_, ?_⟩
  · intro raw E hE
    rcases foldl_addIPToInterfaces_entries raw [] E hE with h | ⟨_, ip, hip, hf⟩
    · exact absurd h (List.not_mem_nil _)
    · exact ⟨by rw [hip]; rfl, ip, hip, hf⟩
  · rintro interfaces ifaceName ip ⟨E, hE, hn⟩
    apply addIPToInterfaces_of_mem
    rw [← hn]
    exact List.mem_map_of_mem _ hE
  · intro raw ifaceName ip hmem
    rw [getInterfaceIPs_append, List.foldl_cons, List.foldl_nil]
    apply addIPToInterfaces_of_mem
    rw [getInterfaceIPs_names]
    exact (mem_firstSeen _ _).2 hmem

theorem built_entries_keep_first_address_witness :
    getInterfaceIPs ([("eth0", "a"), ("lo", "b")] ++ [("eth0", "c")])
      = getInterfaceIPs [("eth0", "a"), ("lo", "b")] :=
  built_entries_keep_first_address.2.2 [("eth0", "a"), ("lo", "b")] "eth0" "c" (by decide)

/-- C13 (the first-run branch is subsumed): on all inputs
`sendNotificationOnInterfaceChange` equals its variant without the
`len(oldInterfaces) == 0` branch; and the run of `main` without a state file
sees the same previous snapshot, hence the same events, as the run that loads
an empty persisted snapshot. -/
theorem first_run_branch_subsumed (newInterfaces oldInterfaces : List NetInterface)
    (config : Config) :
    sendNotificationOnInterfaceChange newInterfaces oldInterfaces config
        = sendNotificationOnInterfaceChangeWithoutFirstRun newInterfaces oldInterfaces config
    ∧ ∀ load : Option (List NetInterface),
        (main.previousInterfaces true (some [])).map
            (fun prev => sendNotificationOnInterfaceChange newInterfaces prev config)
          = (main.previousInterfaces false load).map
            (fun prev => sendNotificationOnInterfaceChange newInterfaces prev config) := by
  constructor
  · induction newInterfaces with
    | nil => rfl
    | cons e rest ih =>
      rw [sendNotificationOnInterfaceChange, sendNotificationOnInterfaceChangeWithoutFirstRun, ih]
      by_cases h1 : oldInterfaces.length = 0
          ∧ isInterfaceInConfig e.Name config.Interfaces = true
      · have hnil : oldInterfaces = [] := List.length_eq_zero.1 h1.1
        have h2 : ¬ isNewInterfaceInOldInterfaces e.Name oldInterfaces = true
            ∧ isInterfaceInConfig e.Name config.Interfaces = true := by
          rw [hnil]
          exact ⟨by simp [isNewInterfaceInOldInterfaces], h1.2⟩
        rw [if_pos h1, if_pos h2]
      · rw [if_neg h1]
  · intro load
    rfl

/-- C14 (per-entry independence): the events for a concatenated new snapshot are
the events for its first part followed by the events for its second part, and
the events for any new snapshot are the concatenation, entry by entry, of the
events for that entry alone. -/
theorem per_entry_independence (n1 n2 oldInterfaces : List NetInterface) (config : Config) :
    sendNotificationOnInterfaceChange (n1 ++ n2) oldInterfaces config
        = sendNotificationOnInterfaceChange n1 oldInterfaces config
          ++ sendNotificationOnInterfaceChange n2 oldInterfaces config
    ∧ ∀ newInterfaces : List NetInterface,
        sendNotificationOnInterfaceChange newInterfaces oldInterfaces config
          = (newInterfaces.map
              (fun E => sendNotificationOnInterfaceChange [E] oldInterfaces config)).flatten := by
  refine ⟨sendNotificationOnInterfaceChange_append n1 n2 oldInterfaces config, ?_⟩
  intro newInterfaces
  induction newInterfaces with
  | nil => rfl
  | cons e rest ih =>
    have h : e :: rest = [e] ++ rest := rfl
    rw [List.map_cons, List.flatten_cons, ← ih, h, sendNotificationOnInterfaceChange_append]

/-- C15 (find-by-name agrees with membership): `getOldInterfaceByName` returns
nil exactly when `isNewInterfaceInOldInterfaces` returns false, and otherwise a
value equal to the first entry of the snapshot whose name is the queried one:
its name is the queried name, and it stands in the snapshot after entries of
other names only. -/
theorem find_by_name_agrees (name : String) (oldinterfaces : List NetInterface) :
    (getOldInterfaceByName name oldinterfaces = none
        ↔ isNewInterfaceInOldInterfaces name oldinterfaces = false)
    ∧ getOldInterfaceByName name oldinterfaces
        = oldinterfaces.find? (fun O => decide (O.Name = name))
    ∧ ∀ O : NetInterface, getOldInterfaceByName name oldinterfaces = some O →
        O.Name = name
        ∧ ∃ pre post : List NetInterface,
            oldinterfaces = pre ++ O :: post ∧ ∀ P ∈ pre, P.Name ≠ name := by
  refine ⟨getOldInterfaceByName_eq_none_iff name oldinterfaces, ?_, ?_⟩
  · rw [getOldInterfaceByName_eq_find]
    congr 1
    funext O
    exact decide_eq_decide.2 eq_comm
  · intro O hO
    refine ⟨(getOldInterfaceByName_some hO).2, ?_⟩
    induction oldinterfaces with
    | nil => simp [getOldInterfaceByName] at hO
    | cons o rest ih =>
      by_cases hn : name = o.Name
      · simp only [getOldInterfaceByName, hn, if_true, Option.some.injEq] at hO
        exact ⟨[], rest, by rw [hO]; rfl, by simp⟩
      · simp only [getOldInterfaceByName, hn, if_false] at hO
        obtain ⟨pre, post, hsplit, hpre⟩ := ih hO
        refine ⟨o :: pre, post, by rw [hsplit]; rfl, ?_⟩
        intro P hP
        rcases List.mem_cons.1 hP with h | h
        · rw [h]
          exact fun e => hn e.symm
        · exact hpre P h

theorem find_by_name_agrees_witness :
    (⟨"eth0", ["1.1.1.1"]⟩ : NetInterface).Name = "eth0"
      ∧ ∃ pre post : List NetInterface,
          [⟨"lo", ["127.0.0.1"]⟩, ⟨"eth0", ["1.1.1.1"]⟩, ⟨"eth0", ["2.2.2.2"]⟩]
              = pre ++ (⟨"eth0", ["1.1.1.1"]⟩ : NetInterface) :: post
            ∧ ∀ P ∈ pre, P.Name ≠ "eth0" :=
  (find_by_name_agrees "eth0"
    [⟨"lo", ["127.0.0.1"]⟩, ⟨"eth0", ["1.1.1.1"]⟩, ⟨"eth0", ["2.2.2.2"]⟩]).2.2
    ⟨"eth0", ["1.1.1.1"]⟩ (by decide)

end InterfaceNotifier
